import Mathlib

/-!
Verification of the odoo-sentinel terminal client
(src/odoo_sentinel/__init__.py) against its specification.

The development shallowly embeds the parts of the program the claims
touch: Python values (PyVal), the reply-marker stripping and code
dispatch of Sentinel.main_loop, the scenario selection step
(Sentinel._select_scenario), the scrolling loop of Sentinel._display,
the menu chooser step (Sentinel._menu_choice), the quantity editor step
(Sentinel._select_quantity), the word-wrapping used by the display
engine, and the exception routing of the main loop.

Python strings are modelled as lists of characters; Python integers as
Int (so that the semantics of the modulo operator on negative values
matches Python for positive divisors, which is what Int.emod gives).
-/

/-- Python exception kinds raised by the modelled code paths.
backSignal is SentinelBackException (a subclass of Exception);
keyboardInterrupt and systemExit derive from BaseException only, so the
main loop handler clauses treat them differently from Exception. -/
inductive PyExc where
  | backSignal
  | keyboardInterrupt
  | systemExit
  | indexError
  | keyError
  | typeError
  | attributeError
  | valueError
  deriving DecidableEq, Repr

/-- Python values as they occur in ActionReply payloads: None, booleans,
integers, strings (as character lists), lists, tuples and dicts with
string keys (the only dict keys the program ever uses are the marker
strings). -/
inductive PyVal where
  | none
  | bool (b : Bool)
  | int (n : Int)
  | str (s : List Char)
  | list (xs : List PyVal)
  | tuple (xs : List PyVal)
  | dict (d : List (String × PyVal))

/-- String literal helper building a PyVal string. -/
def pstr (s : String) : PyVal := .str s.toList

/-- Python truthiness of the modelled values: None, False, 0, empty
string, empty list, empty tuple and empty dict are falsy. -/
def truthy : PyVal → Bool
  | .none => false
  | .bool b => b
  | .int n => n != 0
  | .str s => !s.isEmpty
  | .list xs => !xs.isEmpty
  | .tuple xs => !xs.isEmpty
  | .dict d => !d.isEmpty

/-- Python dict.get with default None: first binding of the key, or
PyVal.none when absent. -/
def dictGet (d : List (String × PyVal)) (k : String) : PyVal :=
  match d.find? (fun e => e.1 = k) with
  | Option.some e => e.2
  | Option.none => .none

/-- Python del d[k]: remove the key from the dict. -/
def dictDel (d : List (String × PyVal)) (k : String) : List (String × PyVal) :=
  d.filter (fun e => e.1 ≠ k)

/-- Python equality test of a payload element against a one-character
marker string: true exactly when the element is that string. -/
def isMark (c : Char) : PyVal → Bool
  | .str s => s = [c]
  | _ => false

/-- Beep-marker stripping stage of Sentinel.main_loop (the first of the
two marker checks, source lines 360 to 373).  Mirrors the chain
  if isinstance(result, (type(None), bool)): pass
  elif isinstance(result, dict) and result.get(beep_key): del result[beep_key]
  elif isinstance(result[-1], (tuple, list)) and result[-1][0] == beep_key: result.pop()
  elif isinstance(result[-1], str) and result[-1].startswith(beep_key): result.pop()
including the exceptions Python raises on the way: result[-1] on a dict
without the marker key raises KeyError (no integer key -1 is ever
present), result[-1] on an empty list raises IndexError, result[-1][0]
on an empty tuple raises IndexError, and a bare string or int payload
reaches attribute or index errors of its own. -/
def stripBeep (r : PyVal) : Except PyExc (Bool × PyVal) :=
  match r with
  | .none => .ok (false, r)
  | .bool _ => .ok (false, r)
  | .dict d =>
      if truthy (dictGet d "^") then .ok (true, .dict (dictDel d "^"))
      else .error .keyError
  | .list xs =>
      match xs.getLast? with
      | Option.none => .error .indexError
      | Option.some x =>
        match x with
        | .tuple ys =>
            match ys.head? with
            | Option.none => .error .indexError
            | Option.some y => if isMark '^' y then .ok (true, .list xs.dropLast) else .ok (false, .list xs)
        | .list ys =>
            match ys.head? with
            | Option.none => .error .indexError
            | Option.some y => if isMark '^' y then .ok (true, .list xs.dropLast) else .ok (false, .list xs)
        | .str s =>
            match s.head? with
            | Option.none => .ok (false, .list xs)
            | Option.some c => if c = '^' then .ok (true, .list xs.dropLast) else .ok (false, .list xs)
        | _ => .ok (false, .list xs)
  | .str s =>
      match s.getLast? with
      | Option.none => .error .indexError
      | Option.some c => if c = '^' then .error .attributeError else .ok (false, r)
  | .tuple xs =>
      match xs.getLast? with
      | Option.none => .error .indexError
      | Option.some x =>
        match x with
        | .tuple ys =>
            match ys.head? with
            | Option.none => .error .indexError
            | Option.some y => if isMark '^' y then .error .attributeError else .ok (false, r)
        | .list ys =>
            match ys.head? with
            | Option.none => .error .indexError
            | Option.some y => if isMark '^' y then .error .attributeError else .ok (false, r)
        | .str s =>
            match s.head? with
            | Option.none => .ok (false, r)
            | Option.some c => if c = '^' then .error .attributeError else .ok (false, r)
        | _ => .ok (false, r)
  | .int _ => .error .typeError

/-- Title-marker stripping stage of Sentinel.main_loop (the second
marker check, source lines 375 to 386).  Mirrors the chain
  if isinstance(result, (type(None), bool)): pass
  elif isinstance(result, dict) and result.get(title_key): title = result[title_key]; del result[title_key]
  elif isinstance(result[0], (tuple, list)) and result[0][0] == title_key: title = result.pop(0)[1]
  elif isinstance(result[0], str) and result[0].startswith(title_key): title = result.pop(0)[1:]
with the same exception behaviour on degenerate payloads as the beep
stage (result[0] on a dict without the key raises KeyError, result[0]
on an empty list raises IndexError, a matched tuple without a second
element raises IndexError on the pop(0)[1] access). -/
def stripTitle (r : PyVal) : Except PyExc (Option PyVal × PyVal) :=
  match r with
  | .none => .ok (Option.none, r)
  | .bool _ => .ok (Option.none, r)
  | .dict d =>
      if truthy (dictGet d "|") then .ok (Option.some (dictGet d "|"), .dict (dictDel d "|"))
      else .error .keyError
  | .list xs =>
      match xs with
      | [] => .error .indexError
      | x :: rest =>
        match x with
        | .tuple ys =>
            match ys.head? with
            | Option.none => .error .indexError
            | Option.some y =>
              if isMark '|' y then
                match ys.get? 1 with
                | Option.some v => .ok (Option.some v, .list rest)
                | Option.none => .error .indexError
              else .ok (Option.none, .list (x :: rest))
        | .list ys =>
            match ys.head? with
            | Option.none => .error .indexError
            | Option.some y =>
              if isMark '|' y then
                match ys.get? 1 with
                | Option.some v => .ok (Option.some v, .list rest)
                | Option.none => .error .indexError
              else .ok (Option.none, .list (x :: rest))
        | .str s =>
            match s.head? with
            | Option.none => .ok (Option.none, .list (x :: rest))
            | Option.some c =>
              if c = '|' then .ok (Option.some (.str (s.drop 1)), .list rest)
              else .ok (Option.none, .list (x :: rest))
        | _ => .ok (Option.none, .list (x :: rest))
  | .str s =>
      match s.head? with
      | Option.none => .error .indexError
      | Option.some c => if c = '|' then .error .attributeError else .ok (Option.none, r)
  | .tuple xs =>
      match xs with
      | [] => .error .indexError
      | x :: _ =>
        match x with
        | .tuple ys =>
            match ys.head? with
            | Option.none => .error .indexError
            | Option.some y => if isMark '|' y then .error .attributeError else .ok (Option.none, r)
        | .list ys =>
            match ys.head? with
            | Option.none => .error .indexError
            | Option.some y => if isMark '|' y then .error .attributeError else .ok (Option.none, r)
        | .str s =>
            match s.head? with
            | Option.none => .ok (Option.none, r)
            | Option.some c => if c = '|' then .error .attributeError else .ok (Option.none, r)
        | _ => .ok (Option.none, r)
  | .int _ => .error .typeError

/-- Result of stripping both markers: captured title, beep flag, and the
residual payload. -/
structure StripRes where
  title : Option PyVal
  beep : Bool
  payload : PyVal

/-- Marker stripping exactly as Sentinel.main_loop performs it: the
beep marker is examined first, then the title marker. -/
def stripMarkers (r : PyVal) : Except PyExc StripRes :=
  match stripBeep r with
  | .error e => .error e
  | .ok (b, r1) =>
    match stripTitle r1 with
    | .error e => .error e
    | .ok (t, r2) => .ok ⟨t, b, r2⟩

/-- Marker stripping in the order the specification states it: the
title marker first, then the beep marker.  Written only to be compared
with stripMarkers, which follows the source. -/
def stripMarkersSpec (r : PyVal) : Except PyExc StripRes :=
  match stripTitle r with
  | .error e => .error e
  | .ok (t, r1) =>
    match stripBeep r1 with
    | .error e => .error e
    | .ok (b, r2) => .ok ⟨t, b, r2⟩


/-! ## Session state, replies, and the protocol loop body -/

/-- Session fields of the Sentinel object the loop reads and writes:
scenario_id and scenario_name.  Both are Python values (False when
absent, True as a bare active marker, or a concrete identifier). -/
structure Session where
  scenarioId : PyVal
  scenarioName : PyVal

/-- ActionReply as returned by every remote call: a (code, result,
value) triple. -/
structure Reply where
  code : String
  result : PyVal
  value : PyVal

/-- Observable effects of one pass through the main loop body, in
order: remote procedure calls, the scanner_check RPC, display panes,
widget invocations, the audible beep, and a diagnostic log write. -/
inductive Evt where
  | rpc (action : String) (message : PyVal)
  | check
  | errorPane (msg : PyVal) (title : Option PyVal)
  | messagePane (msg : PyVal) (title : Option PyVal)
  | widget (name : String) (arg : PyVal)
  | beepSound
  | logWrite

/-- Oracle answering the environment interactions of the active-scenario
loop body: the remote scanner_call endpoint, the scanner_check result,
and the values the interactive widgets return. -/
structure ActOracle where
  call : String → PyVal → Reply
  checkRes : PyVal
  menuChoice : PyVal → PyVal
  confirmRes : Bool
  textRes : PyVal
  qtyRes : PyVal

/-- Assignment performed by Sentinel.scanner_check: the RPC result
becomes scenario_id, and a list result is unpacked into scenario_id and
scenario_name.  The server contract only ever returns a scalar or a
pair; other list lengths would raise ValueError in Python and are not
exercised by any claim. -/
def scannerCheckUpd (res : PyVal) (s : Session) : Session :=
  match res with
  | .list [a, b] => ⟨a, b⟩
  | v => ⟨v, s.scenarioName⟩

/-- The post-check fixup shared by the L branch and _select_scenario:
if scanner_check left no scenario id, scenario_id is set to the bare
True marker and scenario_name to False. -/
def scenarioFixup (s : Session) : Session :=
  if truthy s.scenarioId then s else ⟨.bool true, .bool false⟩

/-- Message of the local reply the except-Exception handler substitutes
(source lines 522 to 524), with the spelling of the source. -/
def errAdminMsg : String := "An error occured\n\nPlease contact your administrator"

/-- Local reply produced by the except-Exception handler of the main
loop. -/
def recoveryReply : Reply := ⟨"E", .list [pstr errAdminMsg], .bool false⟩

/-- Local reply the L branch synthesizes for an empty list payload
(source line 468). -/
def noValueReply : Reply := ⟨"E", .list [pstr "No value available"], .bool true⟩

/-- One pass of the Sentinel.main_loop body while a scenario is active
(source lines 353 to 486 plus the except-Exception clause, lines 494 to
524): strip the two payload markers, fall back to the scenario name as
title, beep if requested, then dispatch on the reply code.  An exception
escaping the body (in particular from the marker stripping) is caught by
the except-Exception clause, which appends a diagnostic log entry and
substitutes the local recovery reply.  Returns the reply for the next
iteration, the updated session, and the trace of observable effects. -/
def mainIterActive (o : ActOracle) (s : Session) (r : Reply) : Reply × Session × List Evt :=
  match stripMarkers r.result with
  | .error _ => (recoveryReply, s, [Evt.logWrite])
  | .ok sr =>
    let title : Option PyVal :=
      if sr.title.isNone ∧ truthy s.scenarioName = true then Option.some s.scenarioName
      else sr.title
    let beepE : List Evt := if sr.beep then [Evt.beepSound] else []
    if r.code = "Q" ∨ r.code = "N" then
      let ret := o.call "action" o.qtyRes
      (ret, s, beepE ++ [Evt.widget "quantity" r.value, Evt.rpc "action" o.qtyRes])
    else if r.code = "C" then
      let ret := o.call "action" (.bool o.confirmRes)
      (ret, s, beepE ++ [Evt.widget "confirm" sr.payload, Evt.rpc "action" (.bool o.confirmRes)])
    else if r.code = "T" then
      let dflt : PyVal :=
        match r.value with
        | .dict d => dictGet d "default"
        | .str t => .str t
        | _ => pstr ""
      let size : PyVal :=
        match r.value with
        | .dict d => dictGet d "size"
        | _ => .none
      let ret := o.call "action" o.textRes
      (ret, s, beepE ++ [Evt.widget "text" (.tuple [dflt, size]), Evt.rpc "action" o.textRes])
    else if r.code = "R" then
      (⟨r.code, sr.payload, r.value⟩, ⟨.bool false, .bool false⟩,
        beepE ++ [Evt.errorPane sr.payload title])
    else if r.code = "U" then
      let ret := o.call "back" (.bool false)
      (ret, s, beepE ++ [Evt.messagePane sr.payload title, Evt.rpc "back" (.bool false)])
    else if r.code = "E" then
      if truthy r.value = false then
        let ret := o.call "action" (.bool false)
        (ret, s, beepE ++ [Evt.errorPane sr.payload title, Evt.rpc "action" (.bool false)])
      else
        let ret := o.call "back" (.bool false)
        (ret, s, beepE ++ [Evt.errorPane sr.payload title, Evt.rpc "back" (.bool false)])
    else if r.code = "M" then
      let ret := o.call "action" r.value
      (ret, s, beepE ++ [Evt.messagePane sr.payload title, Evt.rpc "action" r.value])
    else if r.code = "L" then
      if truthy sr.payload = true then
        let ch := o.menuChoice sr.payload
        let ret := o.call "action" ch
        let s2 := scenarioFixup (scannerCheckUpd o.checkRes s)
        (ret, s2, beepE ++ [Evt.widget "menu" sr.payload, Evt.rpc "action" ch, Evt.check])
      else
        let s2 := scenarioFixup (scannerCheckUpd o.checkRes s)
        (noValueReply, s2, beepE ++ [Evt.check])
    else if r.code = "F" then
      (⟨r.code, sr.payload, r.value⟩, ⟨.bool false, .bool false⟩,
        beepE ++ [Evt.messagePane sr.payload title])
    else
      let ret := o.call "restart" (.bool false)
      (ret, s, beepE ++ [Evt.rpc "restart" (.bool false)])

/-- Oracle for the top-level (no active scenario) branch: the menu RPC
result, the menu chooser output, the action RPC reply and the
scanner_check result. -/
structure ScenOracle where
  menuRes : PyVal
  choice : PyVal → PyVal
  actionRes : PyVal → Reply
  checkRes : PyVal

/-- Sentinel._select_scenario (source lines 569 to 591): fetch the
scenario list with the menu RPC; if it is falsy, return a locally built
R reply at once (no display happens here); otherwise run the menu
chooser, submit the choice with the action RPC, run scanner_check and
apply the fixup. -/
def selectScenario (o : ScenOracle) (s : Session) : Reply × Session × List Evt :=
  if truthy o.menuRes = false then
    (⟨"R", .list [pstr "No scenario available !"], .int 0⟩, s, [Evt.rpc "menu" (.bool false)])
  else
    let ch := o.choice o.menuRes
    let ret := o.actionRes ch
    let s2 := scenarioFixup (scannerCheckUpd o.checkRes s)
    (ret, s2,
      [Evt.rpc "menu" (.bool false), Evt.widget "menu" o.menuRes, Evt.rpc "action" ch, Evt.check])

/-- One pass of the Sentinel.main_loop body (source lines 347 to 486):
when no scenario is active the incoming reply is ignored and
_select_scenario runs; otherwise the active-scenario dispatch runs. -/
def mainIter (ot : ScenOracle) (oa : ActOracle) (s : Session) (r : Reply) :
    Reply × Session × List Evt :=
  if truthy s.scenarioId = false then selectScenario ot s
  else mainIterActive oa s r

/-! ## Exception routing of the main loop -/

/-- Python issubclass test against Exception for the modelled exception
kinds: KeyboardInterrupt and SystemExit derive from BaseException only;
everything else modelled here (including SentinelBackException) derives
from Exception. -/
def isExcSubclass : PyExc → Bool
  | .keyboardInterrupt => false
  | .systemExit => false
  | _ => true

/-- Outcome of one exception escaping the try of the main loop body. -/
inductive LoopOutcome where
  | backRecover
  | logAndRecover (r : Reply)
  | endSession
  | terminate (e : PyExc)

/-- Exception routing of Sentinel.main_loop (source lines 487 to 529):
the inner clauses catch SentinelBackException first and then any
Exception subclass (diagnostic log plus local recovery reply); the outer
clause catches KeyboardInterrupt (graceful end call); anything deriving
only from BaseException, such as the SystemExit raised at the end of a
replay script, propagates and terminates the loop. -/
def mainLoopHandle (e : PyExc) : LoopOutcome :=
  if e = .backSignal then .backRecover
  else if isExcSubclass e then .logAndRecover recoveryReply
  else if e = .keyboardInterrupt then .endSession
  else .terminate e

/-- Lines of one diagnostic log entry, following the template of source
lines 496 to 515: a rule of 79 hash marks, the timestamp, the hardware
code, the scenario identity and name, the last code, result and value,
another rule, and the stack trace. -/
def logLines (ts hw scen name code res val tb : String) : List String :=
  [String.mk (List.replicate 79 '#'),
   "# " ++ ts,
   "# Hardware code : " ++ hw,
   "# ''Current scenario : " ++ scen ++ " (" ++ name ++ ")",
   "# Current values :",
   "#\tcode : " ++ code,
   "#\tresult : " ++ res,
   "#\tvalue : " ++ val,
   String.mk (List.replicate 79 '#'),
   tb]

/-! ## Key handling helpers

Keys delivered by Sentinel.getkey are Python strings (one character for
plain keys, names such as "KEY_DOWN" for special keys) or None when the
underlying curses read failed transiently.  An empty string makes getkey
raise SentinelBackException before any widget sees it. -/

/-- Python str.isdigit for the modelled keys: nonempty and all decimal
digits. -/
def pyIsDigit (k : List Char) : Bool := !k.isEmpty && k.all Char.isDigit

/-- Python int() on a nonempty digit string. -/
def pyStrInt (k : List Char) : Int :=
  k.foldl (fun a c => a * 10 + ((c.toNat : Int) - 48)) 0

/-! ## Display engine scrolling loop (Sentinel._display, scroll mode) -/

/-- Clamp applied at the end of every scrolling iteration (source lines
335 to 337):
  first_line = min(max(0, first_line), max(0, len(text_lines) - height + 1)). -/
def scrollClamp (total height : Nat) (fl : Int) : Int :=
  min (max 0 fl) (max 0 ((total : Int) - (height : Int) + 1))

/-- Outcome of one scrolling iteration: keep looping with a new first
visible line, or hand the pressed key back to the caller. -/
inductive DispOut where
  | cont (fl : Int)
  | exitKey (key : Option (List Char))
  deriving DecidableEq

/-- One iteration of the scrolling loop of Sentinel._display (source
lines 322 to 337) after the redraw: read a key; KEY_DOWN and KEY_UP
move the first visible line and clamp it; every other key, including a
None produced by a failed read, is returned to the caller.  An empty
string raises SentinelBackException inside getkey. -/
def displayScrollStep (total height : Nat) (fl : Int) (key : Option (List Char)) :
    Except PyExc DispOut :=
  match key with
  | Option.none => .ok (.exitKey Option.none)
  | Option.some k =>
    if k = [] then .error .backSignal
    else if k = "KEY_DOWN".toList then .ok (.cont (scrollClamp total height (fl + 1)))
    else if k = "KEY_UP".toList then .ok (.cont (scrollClamp total height (fl - 1)))
    else .ok (.exitKey (Option.some k))

/-- Fold of displayScrollStep over a sequence of scroll keys (true is
KEY_DOWN, false is KEY_UP), starting from first_line = 0 as the loop
does. -/
def scrollRun (total height : Nat) (ks : List Bool) : Int :=
  ks.foldl
    (fun fl k =>
      match displayScrollStep total height fl
          (Option.some (if k then "KEY_DOWN".toList else "KEY_UP".toList)) with
      | .ok (.cont f) => f
      | _ => fl)
    0

/-! ## Menu chooser (Sentinel._menu_choice) -/

/-- Per-widget constants of one _menu_choice invocation: the entry
count, nb_char (the digit width of the entry count as the source
computes it, int(floor(log10(len(entries))) + 1)), the window geometry,
the longest entry and decal = nb_char + 3. -/
structure MenuCtx where
  n : Nat
  nbc : Nat
  winW : Nat
  winH : Nat
  maxLen : Nat
  decal : Nat

/-- nb_char as computed at source line 791 for a nonempty entry list. -/
def menuNbChar (n : Nat) : Nat := Nat.log 10 n + 1

/-- Mouse event data used by the KEY_MOUSE branch: the clicked row and
whether the click was a double click. -/
structure MouseInfo where
  row : Int
  dbl : Bool

/-- Outcome of one menu chooser iteration: keep looping with new
highlight and pan column, or return the chosen index. -/
inductive MenuOut where
  | cont (hl fc : Int)
  | confirm (idx : Int)
  deriving DecidableEq

/-- Shared tail of every non-returning branch of the _menu_choice loop
(source lines 874 to 881): the highlight is reduced modulo the entry
count, and a digit key auto-confirms once the digit width of the
highlight reaches nb_char:
  highlighted %= len(entries)
  current_nb_char = int(math.floor(math.log10(max(1, highlighted))) + 1)
  if highlighted and digit_key and current_nb_char >= nb_char: return keys[highlighted]. -/
def menuFinish (ctx : MenuCtx) (digitKey : Bool) (hl fc : Int) : MenuOut :=
  let h := hl % (ctx.n : Int)
  let cur := Nat.log 10 (max 1 h.toNat) + 1
  if h ≠ 0 ∧ (digitKey = true ∧ ctx.nbc ≤ cur) then .confirm h else .cont h fc

/-- One iteration of the Sentinel._menu_choice loop (source lines 799
to 881) after the redraw: dispatch on the pressed key.  A None key
(failed read) reaches key.isdigit() and raises AttributeError; an empty
string raises SentinelBackException inside getkey; Enter returns the
current highlight; a digit appends to the highlight accumulator;
backspace drops its last digit; KEY_DOWN and KEY_UP move the highlight;
KEY_RIGHT and KEY_LEFT pan the visible text; KEY_MOUSE recomputes the
window, sets the highlight from the clicked row and returns at once on
a double click; every branch except the returns then goes through
menuFinish. -/
def menuChoiceStep (ctx : MenuCtx) (m : MouseInfo) (hl fc : Int) (key : Option (List Char)) :
    Except PyExc MenuOut :=
  match key with
  | Option.none => .error .attributeError
  | Option.some k =>
    if k = [] then .error .backSignal
    else if k = ['\n'] then .ok (.confirm hl)
    else if pyIsDigit k then .ok (menuFinish ctx true (hl * 10 + pyStrInt k) fc)
    else if k = "KEY_BACKSPACE".toList ∨ k = "KEY_DC".toList then
      .ok (menuFinish ctx false (Int.fdiv hl 10) fc)
    else if k = "KEY_DOWN".toList then .ok (menuFinish ctx false (hl + 1) fc)
    else if k = "KEY_RIGHT".toList then
      .ok (menuFinish ctx false hl
        (max 0 (min (fc + 1) ((ctx.maxLen : Int) - (ctx.winW : Int) + (ctx.decal : Int)))))
    else if k = "KEY_UP".toList then .ok (menuFinish ctx false (hl - 1) fc)
    else if k = "KEY_LEFT".toList then .ok (menuFinish ctx false hl (max 0 (fc - 1)))
    else if k = "KEY_MOUSE".toList then
      let nbLines : Int := (ctx.winH : Int) - 1
      let middle : Int := Int.fdiv nbLines 2
      let fl : Int :=
        if (ctx.n : Int) > nbLines ∧ hl ≥ middle then min (hl - middle) ((ctx.n : Int) - nbLines)
        else 0
      let h := min (max 0 (fl + m.row)) ((ctx.n : Int) - 1)
      if m.dbl then .ok (.confirm h) else .ok (menuFinish ctx false h fc)
    else .ok (menuFinish ctx false hl fc)

/-- Fold of menuChoiceStep over a sequence of keys starting from a given
highlight and pan column, reporting the confirmed index if the widget
returns while the keys are consumed (mouse data is irrelevant to the
key sequences considered, so a fixed inert mouse record is passed). -/
def menuRunKeys (ctx : MenuCtx) (keys : List (List Char)) (hl fc : Int) : Option Int :=
  match keys with
  | [] => Option.none
  | k :: rest =>
    match menuChoiceStep ctx ⟨0, false⟩ hl fc (Option.some k) with
    | .ok (.confirm i) => Option.some i
    | .ok (.cont h f) => menuRunKeys ctx rest h f
    | .error _ => Option.none

/-- Decimal digit character of a digit value below ten. -/
def digitChar (d : Nat) : Char := Char.ofNat (48 + d)

/-- Key sequence pressing the given digit values in order. -/
def digitKeys (l : List Nat) : List (List Char) := l.map (fun d => [digitChar d])

/-- Value of a most-significant-first digit list accumulated the way the
digit branch of the menu chooser accumulates it. -/
def foldVal (v : Nat) (l : List Nat) : Nat := l.foldl (fun a d => a * 10 + d) v

/-! ## Quantity editor (Sentinel._select_quantity) -/

/-- State of the quantity editor loop: the quantity string and the
digit_key_pressed flag (false on entry). -/
structure QtySt where
  q : List Char
  pressed : Bool
  deriving DecidableEq

/-- Outcome of one quantity editor iteration: keep looping, return the
quantity string (the source converts it with float() on Enter), or an
arrow increment or decrement, which the source performs through C
double formatting ("%g" % (float(quantity) +- 1)) and which no claim
exercises, so it is surfaced as an explicit outcome instead of being
computed. -/
inductive QtyOut where
  | cont (st : QtySt)
  | done (q : List Char)
  | adjust (up : Bool) (st : QtySt)
  deriving DecidableEq

/-- Coercion applied at the end of every iteration (source lines 769 to
770): an emptied quantity string becomes "0". -/
def emptyToZero (q : List Char) : List Char := if q = [] then ['0'] else q

/-- One iteration of the Sentinel._select_quantity loop (source lines
725 to 770) after the redraw: Enter returns the string; a digit first
resets the string to "0" once (if digit_key_pressed is still false) and
then either replaces a plain "0" or appends; a decimal separator key
(period, comma or star) appends a period when integer mode is off and
none is present yet; backspace drops the last character and sets
digit_key_pressed; arrows adjust by one; a None key raises
AttributeError at key.isdigit(); an empty string raises
SentinelBackException inside getkey. -/
def selectQuantityStep (integer : Bool) (st : QtySt) (key : Option (List Char)) :
    Except PyExc QtyOut :=
  match key with
  | Option.none => .error .attributeError
  | Option.some k =>
    if k = [] then .error .backSignal
    else if k = ['\n'] then .ok (.done st.q)
    else if pyIsDigit k then
      let st1 : QtySt := if st.pressed = false then ⟨['0'], true⟩ else st
      let q2 := if st1.q = ['0'] then k else st1.q ++ k
      .ok (.cont ⟨emptyToZero q2, st1.pressed⟩)
    else if integer = false ∧ ('.' ∈ st.q) = false ∧ (k = ['.'] ∨ k = [','] ∨ k = ['*']) then
      .ok (.cont ⟨emptyToZero (st.q ++ ['.']), st.pressed⟩)
    else if k = "KEY_BACKSPACE".toList ∨ k = "KEY_DC".toList then
      .ok (.cont ⟨emptyToZero st.q.dropLast, true⟩)
    else if k = "KEY_DOWN".toList ∨ k = "KEY_LEFT".toList then .ok (.adjust false st)
    else if k = "KEY_UP".toList ∨ k = "KEY_RIGHT".toList then .ok (.adjust true st)
    else .ok (.cont ⟨emptyToZero st.q, st.pressed⟩)

/-- Fold of selectQuantityStep over a key sequence, stopping at the
first non-continuing outcome. -/
def qtyRunKeys (integer : Bool) (st : QtySt) (keys : List (List Char)) : Except PyExc QtyOut :=
  match keys with
  | [] => .ok (.cont st)
  | k :: rest =>
    match selectQuantityStep integer st (Option.some k) with
    | .ok (.cont st1) => qtyRunKeys integer st1 rest
    | out => out

/-! ## Word wrapping used by the display engine

Sentinel._display in scroll mode wraps every input line with
  textwrap.wrap(line, self.window_width - x - 1) or ['']
(source lines 274 to 278).  textwrap.wrap is the Python standard
library greedy filler with its defaults.  Its two stages are modelled
here:

First, the text is split into chunks by the wordsep_re regular
expression.  With the default break_on_hyphens=True a word is split
after a hyphen when the hyphen is immediately preceded by two letters
(or by letter, hyphen, letter) and followed by a letter and then a
letter or a hyphen and a letter; the resulting chunks of one word are
glued (no space between them), while chunks of distinct words are
separated by the whitespace run between the words.  A chunk is
modelled as a pair of its text and the width of the whitespace run
preceding it (0 for a glued continuation chunk).  The em-dash rule of
wordsep_re (runs of two or more hyphens between words, split into
chunks of their own) is outside the modelled input domain, which is
words of letters and single hyphens.

Second, the greedy filler packs chunks into lines of at most the given
width, counting each interior chunk gap; a line break may fall between
any two chunks, which is exactly how a hyphenated word that fits the
width can still be split across lines; with break_long_words=True
(default) a chunk longer than the width is broken to keep the bound,
and the broken-off remainder continues glued.  drop_whitespace is
modelled by charging no gap to a line-initial chunk.  In the corner
case where a long chunk meets a line with no remaining room after its
gap, real textwrap can keep that trailing space on the emitted line,
which the chunk-list representation here drops. -/

/-- Lookahead of the hyphenated-word rule of wordsep_re at the
position after a hyphen: a letter followed by a letter, or a letter
followed by a hyphen and a letter. -/
def hyphenLookahead : List Char → Bool
  | a :: b :: rest2 =>
      a.isAlpha && (b.isAlpha ||
        (b = '-' && (match rest2 with | c :: _ => c.isAlpha | [] => false)))
  | _ => false

/-- Lookbehind of the hyphenated-word rule of wordsep_re at the
position after a hyphen (the argument is the reversed consumed text,
its head being that hyphen): two letters before the hyphen, or letter,
hyphen, letter. -/
def hyphenLookbehind : List Char → Bool
  | '-' :: p1 :: p2 :: rest =>
      (p1.isAlpha && p2.isAlpha) ||
      (p1.isAlpha && p2 = '-' &&
        (match rest with | p3 :: _ => p3.isAlpha | [] => false))
  | _ => false

/-- Scanner producing the hyphen chunks of one word, left to right:
pre is the reversed consumed text (lookbehind context), acc the
reversed current chunk.  A chunk ends after each hyphen at which both
the lookbehind and the lookahead of wordsep_re succeed. -/
def splitChunksAux (pre acc : List Char) : List Char → List (List Char)
  | [] => [acc.reverse]
  | c :: rest =>
    if c = '-' ∧ hyphenLookbehind (c :: pre) = true ∧ hyphenLookahead rest = true then
      (acc.reverse ++ [c]) :: splitChunksAux (c :: pre) [] rest
    else
      splitChunksAux (c :: pre) (c :: acc) rest

/-- Chunks of one word: the first chunk carries the single-space gap
separating it from the previous word, the continuation chunks are
glued (gap 0). -/
def splitChunks (w : List Char) : List (List Char × Nat) :=
  match splitChunksAux [] [] w with
  | [] => []
  | c :: rest => (c, 1) :: rest.map (fun x => (x, 0))

/-- Gap charged in front of a chunk: nothing at the start of a line
(drop_whitespace), the recorded whitespace width otherwise. -/
def chunkGap (cur : List (List Char × Nat)) (w : List Char × Nat) : Nat :=
  if cur.isEmpty then 0 else w.2

/-- Columns one interior chunk occupies: its gap plus its text. -/
def chunkCost (d : List Char × Nat) : Nat := d.2 + d.1.length

/-- Greedy filling loop of textwrap.wrap over chunks: cur is the
reversed current line, curLen its rendered length.  A chunk is
appended while it fits (counting its gap), starts a fresh line when it
fits a line by itself, and is otherwise broken: it fills the remaining
room of the current line when there is any, and otherwise the current
line is emitted and the chunk fills whole lines of its own, the
remainder continuing glued. -/
def wrapWordsAux (width : Nat) (cur : List (List Char × Nat)) (curLen : Nat) :
    List (List Char × Nat) → List (List (List Char × Nat))
  | [] => if cur.isEmpty then [] else [cur.reverse]
  | w :: ws =>
    let gap := chunkGap cur w
    if h1 : curLen + gap + w.1.length ≤ width then
      wrapWordsAux width (w :: cur) (curLen + gap + w.1.length) ws
    else if h2 : w.1.length ≤ width then
      cur.reverse :: wrapWordsAux width [w] w.1.length ws
    else if h3 : curLen + gap < width then
      let k := width - (curLen + gap)
      (cur.reverse ++ [(w.1.take k, w.2)]) :: wrapWordsAux width [] 0 ((w.1.drop k, 0) :: ws)
    else
      let k := max width 1
      cur.reverse :: [(w.1.take k, w.2)] :: wrapWordsAux width [] 0 ((w.1.drop k, 0) :: ws)
  termination_by ws => (ws.map (fun w => w.1.length + 1)).sum
  decreasing_by
  all_goals simp_all [List.length_drop] <;> omega

/-- textwrap.wrap of one line given as its chunk list. -/
def wrapWords (width : Nat) (ws : List (List Char × Nat)) : List (List (List Char × Nat)) :=
  wrapWordsAux width [] 0 ws

/-- textwrap.wrap of one line given as its list of words (maximal
nonblank runs), chunked at qualifying hyphens first. -/
def wrapLine (width : Nat) (words : List (List Char)) : List (List (List Char × Nat)) :=
  wrapWords width (words.flatMap splitChunks)

/-- One line of the _display wrapping loop:
textwrap.wrap(line, width) or [''] — an empty wrap result (blank input
line) is preserved as one blank entry. -/
def wrapOrBlank (width : Nat) (ws : List (List Char × Nat)) : List (List (List Char × Nat)) :=
  match wrapWords width ws with
  | [] => [[]]
  | r => r

/-- Full text_lines computation of _display scroll mode over the
pre-split input lines, each given as its word list. -/
def wrapLines (width : Nat) (ls : List (List (List Char))) : List (List (List Char × Nat)) :=
  ls.flatMap (fun ws => wrapOrBlank width (ws.flatMap splitChunks))

/-- Merge of the glued chunk runs of one output line back into words:
two adjacent chunks with no gap between them belong to the same word. -/
def rejoinGo (acc : List Char) : List (List Char × Nat) → List (List Char)
  | [] => [acc]
  | d :: t => if d.2 = 0 then rejoinGo (acc ++ d.1) t else acc :: rejoinGo d.1 t

/-- Words an output line displays, reading glued chunk runs as single
words. -/
def rejoinLine : List (List Char × Nat) → List (List Char)
  | [] => []
  | c :: rest => rejoinGo c.1 rest

/-! ## Decidable equality for Except results -/

instance {E A : Type} [DecidableEq E] [DecidableEq A] : DecidableEq (Except E A) := fun a b =>
  match a, b with
  | .ok x, .ok y =>
    if h : x = y then .isTrue (by subst h; rfl)
    else .isFalse (fun hh => h (by injection hh))
  | .error x, .error y =>
    if h : x = y then .isTrue (by subst h; rfl)
    else .isFalse (fun hh => h (by injection hh))
  | .ok _, .error _ => .isFalse (fun hh => Except.noConfusion hh)
  | .error _, .ok _ => .isFalse (fun hh => Except.noConfusion hh)

/-! ## C1: the reply ('L', [], None) while a scenario is active -/

/-- C1: the claim states that a reply ('L', [], None) received while a
scenario is active makes the machine synthesize the local reply
('E', ['No value available'], True) without any further remote call.
On the code, the beep-marker stripping evaluates result[-1] on the
empty list first, raising IndexError, so the except-Exception clause
runs instead: the loop writes a diagnostic log entry and substitutes the
generic administrator recovery reply ('E', [...], False), which differs
from the reply the claim promises (its blocking value is False, not
True, and its message is the administrator message).  No remote call is
made, but the branch with the 'No value available' reply is never
reached. -/
theorem c1_empty_list_recovery (o : ActOracle) (s : Session) :
    mainIterActive o s ⟨"L", .list [], .none⟩ = (recoveryReply, s, [Evt.logWrite]) ∧
    recoveryReply.value ≠ noValueReply.value := by
  refine ⟨rfl, fun h => ?_⟩
  simp [recoveryReply, noValueReply] at h

/-! ## C2: marker stripping order -/

/-- Formalization of the order the claim states: stripping the title
marker first and the beep marker second would have to agree with what
the code computes on every payload. -/
def stripOrderClaim : Prop := ∀ p : PyVal, stripMarkers p = stripMarkersSpec p

/-- C2 counterexample: on the payload ['^x'] (a single-element list
carrying only a beep marker) the code pops the beep marker first and
then crashes with IndexError reading result[0] of the now-empty list,
while the title-first order of the claim strips cleanly. -/
theorem c2_counterexample : ¬ stripOrderClaim := fun h => by
  have h0 := h (.list [pstr "^x"])
  rw [show stripMarkers (.list [pstr "^x"]) = .error .indexError from rfl,
      show stripMarkersSpec (.list [pstr "^x"]) = .ok ⟨Option.none, true, .list []⟩ from rfl] at h0
  exact Except.noConfusion h0

/-- Lookup in a one-step extended dict. -/
theorem dictGet_cons (e : String × PyVal) (rest : List (String × PyVal)) (k : String) :
    dictGet (e :: rest) k = if e.1 = k then e.2 else dictGet rest k := by
  by_cases hk : e.1 = k <;> simp [dictGet, List.find?_cons, hk]

/-- Lookup of a key in a dict is unchanged by deleting a different
key. -/
theorem dictGet_dictDel_ne (d : List (String × PyVal)) (k1 k2 : String) (h : k2 ≠ k1) :
    dictGet (dictDel d k1) k2 = dictGet d k2 := by
  induction d with
  | nil => rfl
  | cons e rest ih =>
    by_cases he : e.1 = k1
    · have hd : dictDel (e :: rest) k1 = dictDel rest k1 := by
        simp [dictDel, List.filter_cons, he]
      have hne2 : e.1 ≠ k2 := by rw [he]; exact fun hh => h hh.symm
      rw [hd, ih, dictGet_cons, if_neg hne2]
    · have hd : dictDel (e :: rest) k1 = e :: dictDel rest k1 := by
        simp [dictDel, List.filter_cons, he]
      rw [hd, dictGet_cons, dictGet_cons, ih]

/-- stripBeep removes a structured beep tag in last position. -/
theorem stripBeep_tagged_last (x bv : PyVal) (mid : List PyVal) :
    stripBeep (.list (x :: mid ++ [.tuple [pstr "^", bv]])) = .ok (true, .list (x :: mid)) := by
  simp only [stripBeep]
  rw [List.getLast?_concat, List.dropLast_concat]
  simp [isMark, pstr]

/-- stripBeep removes a beep-prefixed string in last position. -/
theorem stripBeep_str_last (x : PyVal) (bs : List Char) (mid : List PyVal) :
    stripBeep (.list (x :: mid ++ [.str ('^' :: bs)])) = .ok (true, .list (x :: mid)) := by
  simp only [stripBeep]
  rw [List.getLast?_concat, List.dropLast_concat]
  simp

/-- stripTitle removes a structured title tag in first position. -/
theorem stripTitle_tagged_head (tv : PyVal) (rest : List PyVal) :
    stripTitle (.list (.tuple [pstr "|", tv] :: rest)) = .ok (Option.some tv, .list rest) := by
  simp [stripTitle, isMark, pstr]

/-- stripTitle removes a title-prefixed string in first position. -/
theorem stripTitle_str_head (ts : List Char) (rest : List PyVal) :
    stripTitle (.list (.str ('|' :: ts) :: rest)) = .ok (Option.some (.str ts), .list rest) := by
  simp [stripTitle]

/-- C2 amended: the code strips the beep marker first and the title
marker second; for every payload shape carrying both markers the result
is nevertheless the payload with both markers removed and the title and
beep captured: dicts with truthy values under both marker keys,
structured payloads with a tagged first and last element, and string
payloads with marker-prefixed first and last lines. -/
theorem c2_amended :
    (∀ (d : List (String × PyVal)), truthy (dictGet d "^") = true →
      truthy (dictGet d "|") = true →
      stripMarkers (.dict d) =
        .ok ⟨Option.some (dictGet d "|"), true, .dict (dictDel (dictDel d "^") "|")⟩) ∧
    (∀ (tv bv : PyVal) (mid : List PyVal),
      stripMarkers (.list (.tuple [pstr "|", tv] :: mid ++ [.tuple [pstr "^", bv]])) =
        .ok ⟨Option.some tv, true, .list mid⟩) ∧
    (∀ (ts bs : List Char) (mid : List PyVal),
      stripMarkers (.list (.str ('|' :: ts) :: mid ++ [.str ('^' :: bs)])) =
        .ok ⟨Option.some (.str ts), true, .list mid⟩) := by
  refine ⟨fun d hb ht => ?_, fun tv bv mid => ?_, fun ts bs mid => ?_⟩
  · have hget : dictGet (dictDel d "^") "|" = dictGet d "|" :=
      dictGet_dictDel_ne d "^" "|" (by decide)
    simp [stripMarkers, stripBeep, stripTitle, hb, hget, ht]
  · simp only [stripMarkers, stripBeep_tagged_last, stripTitle_tagged_head]
  · simp only [stripMarkers, stripBeep_str_last, stripTitle_str_head]

/-- C2 witness: the amended theorem applied to a concrete dict payload
carrying both markers. -/
theorem c2_witness :
    truthy (dictGet [("^", PyVal.bool true), ("|", pstr "T")] "^") = true ∧
    stripMarkers (.dict [("^", PyVal.bool true), ("|", pstr "T")]) =
      .ok ⟨Option.some (dictGet [("^", PyVal.bool true), ("|", pstr "T")] "|"), true,
        .dict (dictDel (dictDel [("^", PyVal.bool true), ("|", pstr "T")] "^") "|")⟩ :=
  ⟨by decide, c2_amended.1 [("^", PyVal.bool true), ("|", pstr "T")] (by decide) (by decide)⟩

/-! ## C3: scroll offset range -/

/-- Formalization of the claim: starting from offset 0, the offset after
any sequence of KEY_DOWN and KEY_UP keys stays within
[0, max(0, totalLines - height)]. -/
def scrollOffsetClaim : Prop :=
  ∀ (total height : Nat) (ks : List Bool),
    0 ≤ scrollRun total height ks ∧
      scrollRun total height ks ≤ max 0 ((total : Int) - (height : Int))

/-- C3 counterexample: with 5 wrapped lines and height 3, three
KEY_DOWN presses drive the offset to 3, outside the claimed range
[0, 2]. -/
theorem c3_counterexample : ¬ scrollOffsetClaim := fun h =>
  absurd (h 5 3 [true, true, true]).2 (by decide)

/-- The clamp of the scrolling loop always lands in
[0, max(0, totalLines - height + 1)]. -/
theorem scrollClamp_range (total height : Nat) (fl : Int) :
    0 ≤ scrollClamp total height fl ∧
      scrollClamp total height fl ≤ max 0 ((total : Int) - (height : Int) + 1) := by
  unfold scrollClamp
  constructor <;> omega

/-- C3 amended: the code clamps with upper bound
max(0, totalLines - height + 1) (one more than the claim states), and
within that range the offset is indeed confined for every key
sequence. -/
theorem c3_amended (total height : Nat) (ks : List Bool) :
    0 ≤ scrollRun total height ks ∧
      scrollRun total height ks ≤ max 0 ((total : Int) - (height : Int) + 1) := by
  suffices haux : ∀ (ks : List Bool) (fl : Int),
      0 ≤ fl ∧ fl ≤ max 0 ((total : Int) - (height : Int) + 1) →
      0 ≤ (ks.foldl
        (fun fl k =>
          match displayScrollStep total height fl
              (Option.some (if k then "KEY_DOWN".toList else "KEY_UP".toList)) with
          | .ok (.cont f) => f
          | _ => fl) fl) ∧
      (ks.foldl
        (fun fl k =>
          match displayScrollStep total height fl
              (Option.some (if k then "KEY_DOWN".toList else "KEY_UP".toList)) with
          | .ok (.cont f) => f
          | _ => fl) fl) ≤ max 0 ((total : Int) - (height : Int) + 1) by
    exact haux ks 0 (by constructor <;> omega)
  intro ks
  induction ks with
  | nil => intro fl h; exact h
  | cons k ks ih =>
    intro fl h
    refine ih _ ?_
    cases k
    · exact scrollClamp_range total height (fl - 1)
    · exact scrollClamp_range total height (fl + 1)

/-! ## C4: empty scenario list at top level -/

/-- Oracle whose menu RPC returns an empty scenario list. -/
def emptyMenuOracle : ScenOracle :=
  ⟨.list [], fun _ => .none, fun _ => ⟨"F", .none, .none⟩, .bool false⟩

/-- Inert active-scenario oracle (never consulted at top level). -/
def actOracleInert : ActOracle :=
  ⟨fun _ _ => ⟨"F", .none, .none⟩, .bool false, fun _ => .none, false, .none, .none⟩

/-- Session at the top level (no active scenario). -/
def inactiveSession : Session := ⟨.bool false, .bool false⟩

/-- Local reply _select_scenario builds for an empty scenario list. -/
def noScenarioReply : Reply := ⟨"R", .list [pstr "No scenario available !"], .int 0⟩

/-- C4: when the remote menu call returns an empty list at the top
level, the loop body only issues the menu RPC and returns the local
R reply: no error pane (and no pane at all) is displayed, and the
session still has no active scenario, so the next iteration discards
that R reply and issues the menu RPC again.  The claim says an error is
shown to the operator instead of this silent refetch. -/
theorem c4_empty_menu_silent_refetch :
    (∀ r : Reply, mainIter emptyMenuOracle actOracleInert inactiveSession r =
      (noScenarioReply, inactiveSession, [Evt.rpc "menu" (.bool false)])) ∧
    mainIter emptyMenuOracle actOracleInert inactiveSession noScenarioReply =
      (noScenarioReply, inactiveSession, [Evt.rpc "menu" (.bool false)]) :=
  ⟨fun _ => rfl, rfl⟩

/-! ## C7: quantity editor digit handling -/

/-- Formalization of the claim that after the first digit, every
subsequent digit keystroke appends to the quantity string. -/
def qtyDigitAppendClaim : Prop :=
  ∀ (integer : Bool) (st : QtySt) (k : List Char), pyIsDigit k = true → st.pressed = true →
    selectQuantityStep integer st (Option.some k) = .ok (.cont ⟨st.q ++ k, true⟩)

/-- C7 counterexample: from the state "0" reached after a first digit 0
(seed "10", press 0), pressing 5 yields "5", not "05": the digit
replaces the string again instead of appending. -/
theorem c7_counterexample : ¬ qtyDigitAppendClaim := fun h =>
  absurd (h false ⟨['0'], true⟩ ['5'] (by decide) rfl) (by decide)

/-- Digit keys are nonempty and are not the Enter key. -/
theorem pyIsDigit_facts (k : List Char) (h : pyIsDigit k = true) : k ≠ [] ∧ k ≠ ['\n'] := by
  constructor
  · rintro rfl; exact absurd h (by decide)
  · rintro rfl; exact absurd h (by decide)

/-- C7 amended: the first digit keystroke after entry replaces the
seeded string with that digit; a later digit appends whenever the
current string differs from "0", and replaces a current string equal to
"0" (so no leading zero is ever produced). -/
theorem c7_amended :
    (∀ (integer : Bool) (st : QtySt) (k : List Char), pyIsDigit k = true →
      st.pressed = false →
      selectQuantityStep integer st (Option.some k) = .ok (.cont ⟨k, true⟩)) ∧
    (∀ (integer : Bool) (st : QtySt) (k : List Char), pyIsDigit k = true →
      st.pressed = true → st.q ≠ ['0'] →
      selectQuantityStep integer st (Option.some k) = .ok (.cont ⟨st.q ++ k, true⟩)) ∧
    (∀ (integer : Bool) (st : QtySt) (k : List Char), pyIsDigit k = true →
      st.pressed = true → st.q = ['0'] →
      selectQuantityStep integer st (Option.some k) = .ok (.cont ⟨k, true⟩)) := by
  refine ⟨fun integer st k hk hp => ?_, fun integer st k hk hp hq => ?_,
    fun integer st k hk hp hq => ?_⟩
  · obtain ⟨hne, hnl⟩ := pyIsDigit_facts k hk
    simp [selectQuantityStep, hne, hnl, hk, hp, emptyToZero]
  · obtain ⟨hne, hnl⟩ := pyIsDigit_facts k hk
    simp [selectQuantityStep, hne, hnl, hk, hp, hq, emptyToZero]
  · obtain ⟨hne, hnl⟩ := pyIsDigit_facts k hk
    simp [selectQuantityStep, hne, hnl, hk, hp, hq, emptyToZero]

/-- C7 witness: the amended theorem applied to the seeded state "10"
(first digit 3 replaces) and to the state "42" with the flag set
(digit 7 appends). -/
theorem c7_witness :
    pyIsDigit ['3'] = true ∧
    selectQuantityStep false ⟨['1', '0'], false⟩ (Option.some ['3']) =
      .ok (.cont ⟨['3'], true⟩) ∧
    selectQuantityStep false ⟨['4', '2'], true⟩ (Option.some ['7']) =
      .ok (.cont ⟨['4', '2', '7'], true⟩) :=
  ⟨by decide, c7_amended.1 false ⟨['1', '0'], false⟩ ['3'] (by decide) rfl,
    c7_amended.2.1 false ⟨['4', '2'], true⟩ ['7'] (by decide) rfl (by decide)⟩

/-! ## C8: exception routing of the main loop -/

/-- Formalization of the claim: every exception other than the
step-back signal and the operator interrupt is logged and converted
into the local recovery reply. -/
def loopExceptionClaim : Prop :=
  ∀ e : PyExc, e ≠ .backSignal → e ≠ .keyboardInterrupt →
    mainLoopHandle e = .logAndRecover recoveryReply

/-- C8 counterexample: SystemExit (raised when a replay script reaches
its end) derives from BaseException only, so neither inner handler
clause catches it: it propagates and terminates the loop instead of
being logged and converted. -/
theorem c8_counterexample : ¬ loopExceptionClaim := fun h =>
  nomatch h .systemExit (by decide) (by decide)

/-- C8 amended: every Exception-derived exception other than the
step-back signal is diagnostic-logged and converted into the local
'contact your administrator' E reply, and the log entry template carries
the timestamp, hardware identity, scenario identity and name, the last
code, result and value, and the stack trace; SystemExit and
KeyboardInterrupt are outside this clause (replay end of stream and
operator interrupt). -/
theorem c8_amended (e : PyExc) (he : isExcSubclass e = true) (hb : e ≠ PyExc.backSignal) :
    mainLoopHandle e = .logAndRecover recoveryReply ∧
    recoveryReply = ⟨"E", .list [pstr errAdminMsg], .bool false⟩ ∧
    ∀ ts hw scen name code res val tb : String,
      ("# " ++ ts) ∈ logLines ts hw scen name code res val tb ∧
      ("# Hardware code : " ++ hw) ∈ logLines ts hw scen name code res val tb ∧
      ("# ''Current scenario : " ++ scen ++ " (" ++ name ++ ")") ∈
        logLines ts hw scen name code res val tb ∧
      ("#\tcode : " ++ code) ∈ logLines ts hw scen name code res val tb ∧
      ("#\tresult : " ++ res) ∈ logLines ts hw scen name code res val tb ∧
      ("#\tvalue : " ++ val) ∈ logLines ts hw scen name code res val tb ∧
      tb ∈ logLines ts hw scen name code res val tb := by
  refine ⟨?_, rfl, fun ts hw scen name code res val tb => ?_⟩
  · simp [mainLoopHandle, hb, he]
  · simp [logLines]

/-- C8 witness: the amended theorem applied to IndexError. -/
theorem c8_witness :
    isExcSubclass .indexError = true ∧
    mainLoopHandle .indexError = .logAndRecover recoveryReply :=
  ⟨rfl, (c8_amended .indexError rfl (by decide)).1⟩

/-! ## C9: None keys from transient read failures -/

/-- Formalization of the claim for the menu chooser: a None key would be
treated as no key pressed, leaving the widget looping in the same
state. -/
def noneKeyNoOpClaim : Prop :=
  ∀ (ctx : MenuCtx) (m : MouseInfo) (hl fc : Int),
    menuChoiceStep ctx m hl fc Option.none = .ok (.cont hl fc)

/-- C9 counterexample: a None key reaches key.isdigit() in the menu
chooser and raises AttributeError rather than being ignored. -/
theorem c9_counterexample : ¬ noneKeyNoOpClaim := fun h =>
  nomatch h ⟨1, 1, 1, 1, 1, 1⟩ ⟨0, false⟩ 0 0

/-- C9 amended: a None key (failed read) raises AttributeError in the
menu chooser and in the quantity editor, and the scrolling display
returns it to its caller; the error reaches the except-Exception
handler of the main loop, which logs it and substitutes the recovery
reply, so the loop continues. -/
theorem c9_amended :
    (∀ (ctx : MenuCtx) (m : MouseInfo) (hl fc : Int),
      menuChoiceStep ctx m hl fc Option.none = .error .attributeError) ∧
    (∀ (integer : Bool) (st : QtySt),
      selectQuantityStep integer st Option.none = .error .attributeError) ∧
    (∀ (total height : Nat) (fl : Int),
      displayScrollStep total height fl Option.none = .ok (.exitKey Option.none)) ∧
    mainLoopHandle .attributeError = .logAndRecover recoveryReply :=
  ⟨fun _ _ _ _ => rfl, fun _ _ => rfl, fun _ _ _ => rfl, rfl⟩

/-! ## C10: menu highlight stays in range -/

/-- Property that a menu chooser step outcome carries a highlight or a
confirmed index within [0, n). -/
def menuOutInRange (n : Nat) : Except PyExc MenuOut → Prop
  | .ok (.cont h _) => 0 ≤ h ∧ h < (n : Int)
  | .ok (.confirm i) => 0 ≤ i ∧ i < (n : Int)
  | .error _ => True

/-- The shared modulo tail of the menu loop always produces a highlight
or confirmed index in [0, n). -/
theorem menuFinish_range (ctx : MenuCtx) (dk : Bool) (hl fc : Int) (hn : 1 ≤ ctx.n) :
    menuOutInRange ctx.n (.ok (menuFinish ctx dk hl fc)) := by
  have hn0 : (0 : Int) < (ctx.n : Int) := by exact_mod_cast hn
  have h1 : 0 ≤ hl % (ctx.n : Int) := Int.emod_nonneg hl (by omega)
  have h2 : hl % (ctx.n : Int) < (ctx.n : Int) := Int.emod_lt_of_pos hl hn0
  simp only [menuFinish]
  split
  · exact ⟨h1, h2⟩
  · exact ⟨h1, h2⟩

/-- C10: after any keystroke (digit, backspace, arrow, pan, mouse,
resize or any other key) the menu chooser highlight and any confirmed
index lie in [0, n), because every non-returning branch ends in the
modulo reduction and the returning branches return values already in
range; in particular a digit accumulation beyond n - 1 wraps modulo
n. -/
theorem c10_menu_highlight_in_range (ctx : MenuCtx) (m : MouseInfo) (hl fc : Int)
    (key : Option (List Char)) (hn : 1 ≤ ctx.n) (h0 : 0 ≤ hl) (h1 : hl < (ctx.n : Int)) :
    menuOutInRange ctx.n (menuChoiceStep ctx m hl fc key) := by
  have hn0 : (0 : Int) < (ctx.n : Int) := by exact_mod_cast hn
  match key with
  | Option.none => trivial
  | Option.some k =>
    simp only [menuChoiceStep]
    by_cases hk1 : k = []
    · simp only [if_pos hk1]; trivial
    · simp only [if_neg hk1]
      by_cases hk2 : k = ['\n']
      · simp only [if_pos hk2]; exact ⟨h0, h1⟩
      · simp only [if_neg hk2]
        by_cases hk3 : pyIsDigit k = true
        · simp only [if_pos hk3]; exact menuFinish_range ctx true _ _ hn
        · simp only [if_neg hk3]
          by_cases hk4 : k = "KEY_BACKSPACE".toList ∨ k = "KEY_DC".toList
          · simp only [if_pos hk4]; exact menuFinish_range ctx false _ _ hn
          · simp only [if_neg hk4]
            by_cases hk5 : k = "KEY_DOWN".toList
            · simp only [if_pos hk5]; exact menuFinish_range ctx false _ _ hn
            · simp only [if_neg hk5]
              by_cases hk6 : k = "KEY_RIGHT".toList
              · simp only [if_pos hk6]; exact menuFinish_range ctx false _ _ hn
              · simp only [if_neg hk6]
                by_cases hk7 : k = "KEY_UP".toList
                · simp only [if_pos hk7]; exact menuFinish_range ctx false _ _ hn
                · simp only [if_neg hk7]
                  by_cases hk8 : k = "KEY_LEFT".toList
                  · simp only [if_pos hk8]; exact menuFinish_range ctx false _ _ hn
                  · simp only [if_neg hk8]
                    by_cases hk9 : k = "KEY_MOUSE".toList
                    · simp only [if_pos hk9]
                      by_cases hd : m.dbl = true
                      · simp only [hd, if_pos]
                        simp only [menuOutInRange]
                        constructor <;> omega
                      · simp only [hd]
                        simp only [Bool.false_eq_true, if_false, if_neg]
                        exact menuFinish_range ctx false _ _ hn
                    · simp only [if_neg hk9]
                      exact menuFinish_range ctx false _ _ hn

/-- C10 witness: the invariant applied with three entries, highlight 2
and a KEY_DOWN press (the new highlight wraps to 0). -/
theorem c10_witness :
    1 ≤ (3 : Nat) ∧
    menuOutInRange 3
      (menuChoiceStep ⟨3, 1, 18, 6, 1, 4⟩ ⟨0, false⟩ 2 0 (Option.some "KEY_DOWN".toList)) :=
  ⟨by decide,
    c10_menu_highlight_in_range ⟨3, 1, 18, 6, 1, 4⟩ ⟨0, false⟩ 2 0
      (Option.some "KEY_DOWN".toList) (by decide) (by decide) (by decide)⟩

/-! ## C5: word wrapping properties -/

/-- Rendered length of an output line: its first chunk costs its text
only (no line-initial gap), every further chunk its gap plus its
text. -/
def renderLen : List (List Char × Nat) → Nat
  | [] => 0
  | c :: rest => c.1.length + (rest.map chunkCost).sum

/-- Rendered length of a one-chunk line. -/
theorem renderLen_single (w : List Char × Nat) : renderLen [w] = w.1.length := by
  simp [renderLen]

/-- Rendered length of the line extended by one chunk at its end. -/
theorem renderLen_push (cur : List (List Char × Nat)) (w : List Char × Nat) :
    renderLen ((w :: cur).reverse) = renderLen cur.reverse + chunkGap cur w + w.1.length := by
  rw [List.reverse_cons]
  cases hc : cur.reverse with
  | nil =>
    have hcur : cur = [] := by
      have := congrArg List.reverse hc
      simpa using this
    subst hcur
    simp [renderLen, chunkGap]
  | cons c rest =>
    have hcur : cur ≠ [] := by
      intro hnil
      subst hnil
      simp at hc
    have hg : chunkGap cur w = w.2 := by
      simp [chunkGap, List.isEmpty_iff, hcur]
    rw [hg]
    simp [renderLen, chunkCost]
    omega

/-- Concatenating the chunks of all wrapped lines returns the chunk
list unchanged when every chunk fits the width (no chunk is broken,
dropped, duplicated or reordered). -/
theorem wrapWordsAux_flatten (width : Nat) (cur : List (List Char × Nat)) (curLen : Nat)
    (ws : List (List Char × Nat)) :
    (∀ c ∈ ws, c.1.length ≤ width) →
    (wrapWordsAux width cur curLen ws).flatten = cur.reverse ++ ws := by
  induction cur, curLen, ws using wrapWordsAux.induct width with
  | case1 cur curLen hc =>
      intro _
      have hc2 : cur = [] := List.isEmpty_iff.mp hc
      subst hc2
      simp [wrapWordsAux]
  | case2 cur curLen hc =>
      intro _
      simp [wrapWordsAux, hc]
  | case3 cur curLen w ws gap h1 ih =>
      intro h
      rw [wrapWordsAux]
      simp only [dif_pos h1]
      rw [ih (fun v hv => h v (List.mem_cons_of_mem _ hv))]
      simp
  | case4 cur curLen w ws gap h1 h2 ih =>
      intro h
      rw [wrapWordsAux]
      simp only [dif_neg h1, dif_pos h2]
      rw [List.flatten_cons, ih (fun v hv => h v (List.mem_cons_of_mem _ hv))]
      simp
  | case5 cur curLen w ws gap h1 h2 h3 k ih =>
      intro h
      exact absurd (h w (List.mem_cons_self _ _)) h2
  | case6 cur curLen w ws gap h1 h2 h3 k ih =>
      intro h
      exact absurd (h w (List.mem_cons_self _ _)) h2

/-- Every wrapped line has rendered length at most the width, for any
chunk input (long chunks are broken to keep the bound). -/
theorem wrapWordsAux_le (width : Nat) (hw : 1 ≤ width) (cur : List (List Char × Nat))
    (curLen : Nat) (ws : List (List Char × Nat)) :
    curLen = renderLen cur.reverse → curLen ≤ width →
    ∀ l ∈ wrapWordsAux width cur curLen ws, renderLen l ≤ width := by
  induction cur, curLen, ws using wrapWordsAux.induct width with
  | case1 cur curLen hc =>
      intro _ _ l hl
      simp [wrapWordsAux, hc] at hl
  | case2 cur curLen hc =>
      intro hc1 hcb l hl
      simp [wrapWordsAux, hc] at hl
      subst hl
      rw [← hc1]
      exact hcb
  | case3 cur curLen w ws gap h1 ih =>
      intro hc1 hcb
      rw [wrapWordsAux]
      simp only [dif_pos h1]
      refine ih ?_ h1
      rw [renderLen_push, hc1]
  | case4 cur curLen w ws gap h1 h2 ih =>
      intro hc1 hcb l hl
      rw [wrapWordsAux] at hl
      simp only [dif_neg h1, dif_pos h2, List.mem_cons] at hl
      rcases hl with hl | hl
      · subst hl
        rw [← hc1]
        exact hcb
      · refine ih ?_ h2 l hl
        simp [renderLen_single]
  | case5 cur curLen w ws gap h1 h2 h3 k ih =>
      intro hc1 hcb l hl
      rw [wrapWordsAux] at hl
      simp only [dif_neg h1, dif_neg h2, dif_pos h3, List.mem_cons] at hl
      rcases hl with hl | hl
      · subst hl
        rw [← List.reverse_cons, renderLen_push]
        have hg : chunkGap cur (w.1.take (width - (curLen + gap)), w.2) = gap := rfl
        rw [hg, List.length_take, ← hc1]
        omega
      · exact ih rfl (by omega) l hl
  | case6 cur curLen w ws gap h1 h2 h3 k ih =>
      intro hc1 hcb l hl
      rw [wrapWordsAux] at hl
      simp only [dif_neg h1, dif_neg h2, dif_neg h3, List.mem_cons] at hl
      rcases hl with hl | hl | hl
      · subst hl
        rw [← hc1]
        exact hcb
      · subst hl
        rw [renderLen_single, List.length_take]
        omega
      · exact ih rfl (by omega) l hl

/-- A word without hyphens is one chunk (the scanner never splits). -/
theorem splitChunksAux_no_hyphen (pre acc rest : List Char) (h : '-' ∉ rest) :
    splitChunksAux pre acc rest = [acc.reverse ++ rest] := by
  induction rest generalizing pre acc with
  | nil => simp [splitChunksAux]
  | cons c t ih =>
    have hc : ¬ c = '-' := fun hh => h (hh ▸ List.mem_cons_self _ _)
    rw [splitChunksAux, if_neg (by simp [hc])]
    rw [ih (c :: pre) (c :: acc) (fun hm => h (List.mem_cons_of_mem _ hm))]
    simp

/-- A word without hyphens becomes a single space-separated chunk. -/
theorem splitChunks_no_hyphen (w : List Char) (h : '-' ∉ w) : splitChunks w = [(w, 1)] := by
  rw [splitChunks, splitChunksAux_no_hyphen [] [] w h]
  simp

/-- Chunking a list of hyphen-free words gives one chunk per word. -/
theorem flatMap_splitChunks_no_hyphen (words : List (List Char))
    (h : ∀ w ∈ words, '-' ∉ w) :
    words.flatMap splitChunks = words.map (fun w => (w, 1)) := by
  induction words with
  | nil => rfl
  | cons w t ih =>
    rw [List.flatMap_cons, List.map_cons,
      splitChunks_no_hyphen w (h w (List.mem_cons_self _ _)),
      ih (fun v hv => h v (List.mem_cons_of_mem _ hv))]
    rfl

/-- A line whose chunks all carry a positive gap reads as one word per
chunk. -/
theorem rejoinGo_sep (acc : List Char) (t : List (List Char × Nat))
    (h : ∀ d ∈ t, d.2 ≠ 0) : rejoinGo acc t = acc :: t.map Prod.fst := by
  induction t generalizing acc with
  | nil => rfl
  | cons d t ih =>
    rw [rejoinGo, if_neg (h d (List.mem_cons_self _ _)),
      ih d.1 (fun e he => h e (List.mem_cons_of_mem _ he))]
    rfl

/-- Reading a line of positive-gap chunks gives exactly its chunk
texts. -/
theorem rejoinLine_sep (l : List (List Char × Nat)) (h : ∀ d ∈ l, d.2 ≠ 0) :
    rejoinLine l = l.map Prod.fst := by
  cases l with
  | nil => rfl
  | cons c rest =>
    rw [rejoinLine, rejoinGo_sep c.1 rest (fun e he => h e (List.mem_cons_of_mem _ he))]
    rfl

/-- Evaluation of the wrap on the hyphenated example: at width 8 the
7-character word foo-bar, which fits the width, is nevertheless split
after its hyphen, exactly as textwrap.wrap("aa foo-bar", 8) returns
["aa foo-", "bar"]. -/
theorem wrapLine_hyphen_example :
    wrapLine 8 [['a', 'a'], ['f', 'o', 'o', '-', 'b', 'a', 'r']] =
      [[(['a', 'a'], 1), (['f', 'o', 'o', '-'], 1)], [(['b', 'a', 'r'], 0)]] := by
  rw [wrapLine,
    show ([['a', 'a'], ['f', 'o', 'o', '-', 'b', 'a', 'r']].flatMap splitChunks) =
      [(['a', 'a'], 1), (['f', 'o', 'o', '-'], 1), (['b', 'a', 'r'], 0)] from by decide]
  simp [wrapWords, wrapWordsAux, chunkGap]

/-- Formalization of the claim: word wrapping at a positive width never
splits a word, stated as the output lines, read back as words (glued
chunk runs merged), concatenating to the input word list for every
input. -/
def wrapNoSplitClaim : Prop :=
  ∀ (width : Nat) (words : List (List Char)), 1 ≤ width →
    ((wrapLine width words).map rejoinLine).flatten = words

/-- C5 counterexample: wrapping the words aa and foo-bar at width 8
splits the 7-character word foo-bar (which fits the width) across two
lines at its hyphen, because textwrap default break_on_hyphens chunks
it; the lines read back as aa, foo-, bar, not the input words. -/
theorem c5_counterexample : ¬ wrapNoSplitClaim := by
  intro hcl
  have h0 := hcl 8 [['a', 'a'], ['f', 'o', 'o', '-', 'b', 'a', 'r']] (by norm_num)
  rw [wrapLine_hyphen_example] at h0
  revert h0
  decide

/-- C5 amended: at every positive width, every wrapped line stays
within the width; a word containing no hyphen and no longer than the
width is never split (the output lines read back to the input words);
but a hyphenated word may be split after a qualifying hyphen even when
it fits the width (break_on_hyphens default, witnessed on
"aa foo-bar" at width 8), and a chunk longer than the width is broken
(break_long_words default); an empty input line is preserved as one
blank entry. -/
theorem c5_amended (width : Nat) (hw : 1 ≤ width) :
    (∀ (chs : List (List Char × Nat)), ∀ l ∈ wrapWords width chs, renderLen l ≤ width) ∧
    (∀ (words : List (List Char)), (∀ w ∈ words, w.length ≤ width ∧ '-' ∉ w) →
      ((wrapLine width words).map rejoinLine).flatten = words) ∧
    wrapOrBlank width [] = [[]] ∧
    wrapLine 8 [['a', 'a'], ['f', 'o', 'o', '-', 'b', 'a', 'r']] =
      [[(['a', 'a'], 1), (['f', 'o', 'o', '-'], 1)], [(['b', 'a', 'r'], 0)]] := by
  refine ⟨fun chs => wrapWordsAux_le width hw [] 0 chs rfl (by omega), fun words hws => ?_,
    by simp [wrapOrBlank, wrapWords, wrapWordsAux], wrapLine_hyphen_example⟩
  have hch : words.flatMap splitChunks = words.map (fun w => (w, 1)) :=
    flatMap_splitChunks_no_hyphen words (fun w hw2 => (hws w hw2).2)
  have hfit : ∀ c ∈ words.map (fun w => (w, (1 : Nat))), c.1.length ≤ width := by
    intro c hc
    obtain ⟨w, hw2, rfl⟩ := List.mem_map.mp hc
    exact (hws w hw2).1
  have hfl : (wrapWords width (words.map (fun w => (w, 1)))).flatten =
      words.map (fun w => (w, 1)) :=
    wrapWordsAux_flatten width [] 0 _ hfit
  have hsep : ∀ l ∈ wrapWords width (words.map (fun w => (w, 1))), ∀ d ∈ l, d.2 ≠ 0 := by
    intro l hl d hd
    have hmem : d ∈ (wrapWords width (words.map (fun w => (w, 1)))).flatten :=
      List.mem_flatten.mpr ⟨l, hl, hd⟩
    rw [hfl] at hmem
    obtain ⟨w, _, hwd⟩ := List.mem_map.mp hmem
    rw [← hwd]
    norm_num
  calc ((wrapLine width words).map rejoinLine).flatten
      = ((wrapWords width (words.map (fun w => (w, 1)))).map rejoinLine).flatten := by
        rw [wrapLine, hch]
    _ = ((wrapWords width (words.map (fun w => (w, 1)))).map
          (fun l => l.map Prod.fst)).flatten := by
        rw [List.map_congr_left (fun l hl => rejoinLine_sep l (hsep l hl))]
    _ = ((wrapWords width (words.map (fun w => (w, 1)))).flatten).map Prod.fst := by
        rw [List.map_flatten]
    _ = (words.map (fun w => (w, 1))).map Prod.fst := by rw [hfl]
    _ = words := by simp [List.map_map, Function.comp_def]

/-- C5 witness: the amended theorem applied at width 5 to the
hyphen-free words ab and cde. -/
theorem c5_witness :
    1 ≤ 5 ∧
    ((wrapLine 5 [['a', 'b'], ['c', 'd', 'e']]).map rejoinLine).flatten =
      [['a', 'b'], ['c', 'd', 'e']] :=
  ⟨by decide,
    (c5_amended 5 (by decide)).2.1 [['a', 'b'], ['c', 'd', 'e']] (by decide)⟩

/-! ## C6: digit auto-confirm in the menu chooser -/

/-- One digit folded into the accumulator. -/
theorem foldVal_cons (v d : Nat) (l : List Nat) : foldVal v (d :: l) = foldVal (v * 10 + d) l :=
  rfl

/-- Folding digits never decreases the accumulator. -/
theorem foldVal_le (v : Nat) (l : List Nat) : v ≤ foldVal v l := by
  induction l generalizing v with
  | nil => exact le_refl v
  | cons d t ih => exact le_trans (by omega) (ih (v * 10 + d))

/-- Appending one decimal digit to a positive number increments its
decimal logarithm. -/
theorem log10_mul_add (v d : Nat) (hv : 1 ≤ v) (hd : d < 10) :
    Nat.log 10 (v * 10 + d) = Nat.log 10 v + 1 := by
  have h1 : v < 10 ^ (Nat.log 10 v + 1) := Nat.lt_pow_succ_log_self (by norm_num) v
  have hps : 10 ^ Nat.log 10 v ≤ v := Nat.pow_log_le_self 10 (by omega)
  have hpow : 10 ^ (Nat.log 10 v + 1) = 10 ^ Nat.log 10 v * 10 := by rw [pow_succ]
  have hpow2 : 10 ^ (Nat.log 10 v + 2) = 10 ^ (Nat.log 10 v + 1) * 10 := by rw [pow_succ]
  apply le_antisymm
  · have h2 : v * 10 + d < 10 ^ (Nat.log 10 v + 2) := by omega
    have h3 := Nat.log_lt_of_lt_pow (by omega : v * 10 + d ≠ 0) h2
    omega
  · have h4 : 10 ^ (Nat.log 10 v + 1) ≤ v * 10 + d := by omega
    exact (Nat.pow_le_iff_le_log (by norm_num) (by omega : v * 10 + d ≠ 0)).mp h4

/-- Evaluation of the menu chooser step on a single digit key: the
digit branch is taken, accumulating into the highlight. -/
theorem menuChoiceStep_digit (ctx : MenuCtx) (m : MouseInfo) (hl fc : Int) (d : Nat)
    (hd : d < 10) :
    menuChoiceStep ctx m hl fc (Option.some [digitChar d]) =
      .ok (menuFinish ctx true (hl * 10 + (d : Int)) fc) := by
  interval_cases d <;> rfl

/-- Evaluation of the shared loop tail on a digit press when the
accumulated value is positive and below the entry count: the modulo is
the identity and auto-confirmation happens exactly when the digit
width of the value reaches nb_char. -/
theorem menuFinish_digit_nat (ctx : MenuCtx) (fc : Int) (w : Nat) (hw1 : 1 ≤ w)
    (hwn : w < ctx.n) :
    menuFinish ctx true ((w : Nat) : Int) fc =
      (if ctx.nbc ≤ Nat.log 10 w + 1 then MenuOut.confirm (w : Int)
       else MenuOut.cont (w : Int) fc) := by
  have hmod : ((w : Int)) % (ctx.n : Int) = (w : Int) :=
    Int.emod_eq_of_lt (by exact_mod_cast Nat.zero_le w) (by exact_mod_cast hwn)
  have hne : ((w : Int)) ≠ 0 := by
    exact_mod_cast (by omega : w ≠ 0)
  simp only [menuFinish, hmod, Int.toNat_natCast]
  rw [Nat.max_eq_right hw1]
  simp [hne]

/-- Main run lemma for the digit keys of a value: starting from a
positive accumulated prefix v whose digit count together with the
remaining keys is exactly nb_char, pressing the remaining digits leaves
the widget unconfirmed until the last one, which auto-confirms the
accumulated value. -/
theorem menuRunKeys_go (ctx : MenuCtx) (l : List Nat) :
    ∀ (v : Nat) (fc : Int), 1 ≤ v → (∀ d ∈ l, d < 10) → l ≠ [] →
    foldVal v l < ctx.n → Nat.log 10 v + 1 + l.length = ctx.nbc →
    menuRunKeys ctx (digitKeys l) ((v : Nat) : Int) fc =
      Option.some ((foldVal v l : Nat) : Int) := by
  induction l with
  | nil => intro v fc _ _ hne; exact absurd rfl hne
  | cons d rest ih =>
    intro v fc hv hd hne hlt hlen
    have hd10 : d < 10 := hd d (List.mem_cons_self _ _)
    have hw1 : 1 ≤ v * 10 + d := by omega
    have hwn : v * 10 + d < ctx.n := by
      have hle := foldVal_le (v * 10 + d) rest
      rw [foldVal_cons] at hlt
      omega
    have hlog : Nat.log 10 (v * 10 + d) = Nat.log 10 v + 1 := log10_mul_add v d hv hd10
    have hcast : ((v : Int)) * 10 + (d : Int) = (((v * 10 + d : Nat)) : Int) := by
      push_cast; ring
    simp only [digitKeys, List.map_cons]
    simp only [menuRunKeys]
    rw [menuChoiceStep_digit ctx _ _ _ d hd10, hcast,
      menuFinish_digit_nat ctx fc (v * 10 + d) hw1 hwn]
    cases rest with
    | nil =>
      have hc : ctx.nbc ≤ Nat.log 10 (v * 10 + d) + 1 := by
        rw [hlog]
        simp only [List.length_cons, List.length_nil] at hlen
        omega
      rw [if_pos hc]
      rfl
    | cons d2 rest2 =>
      have hnc : ¬ ctx.nbc ≤ Nat.log 10 (v * 10 + d) + 1 := by
        rw [hlog]
        simp only [List.length_cons] at hlen
        omega
      rw [if_neg hnc]
      have happ := ih (v * 10 + d) fc hw1
        (fun e he => hd e (List.mem_cons_of_mem _ he))
        (List.cons_ne_nil _ _)
        (by rw [← foldVal_cons]; exact hlt)
        (by rw [hlog]; simp only [List.length_cons] at hlen ⊢; omega)
      rw [foldVal_cons]
      exact happ

/-- Digits folded most significant first recover the number. -/
theorem foldVal_eq_ofDigits (l : List Nat) :
    ∀ a : Nat, foldVal a l = a * 10 ^ l.length + Nat.ofDigits 10 l.reverse := by
  induction l with
  | nil => intro a; simp [foldVal, Nat.ofDigits]
  | cons d t ih =>
    intro a
    rw [foldVal_cons, ih (a * 10 + d), List.reverse_cons, Nat.ofDigits_append]
    simp only [Nat.ofDigits_singleton, List.length_reverse, List.length_cons]
    push_cast
    ring

/-- Folding the decimal digits of i most significant first gives i. -/
theorem foldVal_digits (i : Nat) : foldVal 0 ((Nat.digits 10 i).reverse) = i := by
  rw [foldVal_eq_ofDigits _ 0, List.reverse_reverse, Nat.ofDigits_digits]
  simp

/-- Formalization of the claim: pressing any digit encoding of an index
i below the entry count, with as many keystrokes as the digit width of
the entry count, auto-confirms entry i. -/
def menuDigitAutoConfirmClaim : Prop :=
  ∀ (ctx : MenuCtx) (fc : Int) (i : Nat) (l : List Nat),
    i < ctx.n → (∀ d ∈ l, d < 10) → foldVal 0 l = i → l.length = ctx.nbc →
    ctx.nbc = menuNbChar ctx.n →
    menuRunKeys ctx (digitKeys l) 0 fc = Option.some ((i : Nat) : Int)

/-- C6 counterexample: with 5 entries (digit width 1), pressing 0 does
not auto-confirm entry 0, because the auto-validation condition
requires a nonzero highlight; the widget keeps looping and the claim
fails at index 0. -/
theorem c6_counterexample : ¬ menuDigitAutoConfirmClaim := by
  intro h
  have hlog : Nat.log 10 5 = 0 := Nat.log_eq_zero_iff.mpr (Or.inl (by norm_num))
  have hmn : (1 : Nat) = menuNbChar 5 := by rw [menuNbChar, hlog]
  have h0 := h ⟨5, 1, 18, 6, 1, 4⟩ 0 0 [0] (by norm_num) (by simp) rfl rfl hmn
  exact Option.noConfusion h0

/-- C6 amended: for every index i with 1 ≤ i < N whose decimal digit
width equals nb_char, pressing the digits of i from the initial
highlight 0 auto-confirms entry i without Enter; index 0 is the
exception the code never auto-confirms. -/
theorem c6_amended (ctx : MenuCtx) (fc : Int) (i : Nat)
    (h1 : 1 ≤ i) (h2 : i < ctx.n) (hw : (Nat.digits 10 i).length = ctx.nbc) :
    menuRunKeys ctx (digitKeys ((Nat.digits 10 i).reverse)) 0 fc =
      Option.some ((i : Nat) : Int) := by
  have hi0 : i ≠ 0 := by omega
  have hdig : ∀ d ∈ (Nat.digits 10 i).reverse, d < 10 := fun d hdm =>
    Nat.digits_lt_base (by norm_num) (List.mem_reverse.mp hdm)
  have hnil : Nat.digits 10 i ≠ [] := Nat.digits_ne_nil_iff_ne_zero.mpr hi0
  obtain ⟨d1, rest, hsplit⟩ : ∃ d1 rest, (Nat.digits 10 i).reverse = d1 :: rest := by
    rcases hrev : (Nat.digits 10 i).reverse with _ | ⟨a, b⟩
    · exact absurd (List.reverse_eq_nil_iff.mp hrev) hnil
    · exact ⟨a, b, rfl⟩
  have hd1pos : 1 ≤ d1 := by
    have hgl : (Nat.digits 10 i).getLast? = Option.some d1 := by
      rw [← List.head?_reverse, hsplit]; rfl
    have hlast := Nat.getLast_digit_ne_zero 10 hi0
    rw [List.getLast?_eq_getLast _ hnil] at hgl
    have hd1 : (Nat.digits 10 i).getLast hnil = d1 := Option.some.inj hgl
    omega
  have hfold : foldVal d1 rest = i := by
    have hfd := foldVal_digits i
    rw [hsplit, foldVal_cons] at hfd
    simpa using hfd
  have hd1n : d1 < ctx.n := by
    have := foldVal_le d1 rest
    omega
  have hlog1 : Nat.log 10 d1 = 0 :=
    Nat.log_eq_zero_iff.mpr (Or.inl (hdig d1 (hsplit ▸ List.mem_cons_self _ _)))
  have hlen : 1 + rest.length = ctx.nbc := by
    have hli := congrArg List.length hsplit
    simp only [List.length_reverse, List.length_cons] at hli
    omega
  have hcast : ((0 : Int)) * 10 + (d1 : Int) = (((d1 : Nat)) : Int) := by push_cast; ring
  rw [hsplit]
  simp only [digitKeys, List.map_cons]
  simp only [menuRunKeys]
  rw [menuChoiceStep_digit ctx _ _ _ d1 (hdig d1 (hsplit ▸ List.mem_cons_self _ _)), hcast,
    menuFinish_digit_nat ctx fc d1 hd1pos hd1n]
  cases rest with
  | nil =>
    have hc : ctx.nbc ≤ Nat.log 10 d1 + 1 := by
      rw [hlog1]
      simp only [List.length_nil] at hlen
      omega
    rw [if_pos hc]
    have hd1i : d1 = i := by simpa [foldVal] using hfold
    rw [hd1i]
  | cons d2 rest2 =>
    have hnc : ¬ ctx.nbc ≤ Nat.log 10 d1 + 1 := by
      rw [hlog1]
      simp only [List.length_cons] at hlen
      omega
    rw [if_neg hnc]
    have happ := menuRunKeys_go ctx (d2 :: rest2) d1 fc hd1pos
      (fun e he => hdig e (hsplit ▸ List.mem_cons_of_mem _ he))
      (List.cons_ne_nil _ _)
      (by rw [hfold]; exact h2)
      (by rw [hlog1]; simpa using hlen)
    rw [hfold] at happ
    exact happ

/-- Decimal digits of ten. -/
theorem digits_ten : Nat.digits 10 10 = [0, 1] := by
  rw [Nat.digits_def' (by norm_num : (1 : ℕ) < 10) (by norm_num : 0 < 10)]
  norm_num

/-- C6 witness: with 12 entries (digit width 2), pressing 1 then 0
auto-confirms entry 10. -/
theorem c6_witness :
    1 ≤ 10 ∧ 10 < 12 ∧ (Nat.digits 10 10).length = 2 ∧
    menuRunKeys ⟨12, 2, 18, 6, 1, 5⟩ (digitKeys ((Nat.digits 10 10).reverse)) 0 0 =
      Option.some ((10 : Nat) : Int) :=
  ⟨by decide, by decide, by rw [digits_ten]; rfl,
    c6_amended ⟨12, 2, 18, 6, 1, 5⟩ 0 10 (by decide) (by decide) (by rw [digits_ten]; rfl)⟩
